import Mathlib

/-!
Shallow embedding of `gohttptest.go` (package gohttptest, function `Test`).

Times are in nanoseconds, modelled as `Nat` (all durations in the program
come from `time.Since` on the monotonic clock and are non-negative).
Go `int`/`int64` quantities that can be negative (`StatusCode`, `Bytes`,
the entry parameters `count_p`/`count_r`) are modelled as `Int`.
-/

namespace GoHttpTest

/-- Go constant `time.Hour` in nanoseconds; `minDuration` is initialised to it
(line 122 of gohttptest.go). -/
def hour : Nat := 3600000000000

/-- Go struct `result` (gohttptest.go lines 190-195): the Outcome of one
request attempt.  `Error` is `some msg` when the Go `error` field is non-nil. -/
structure result where
  StatusCode : Int
  Duration   : Nat
  Bytes      : Int
  Error      : Option String
deriving DecidableEq

/-- The externally determined fate of one request attempt, as seen by the
worker body (lines 74-106): either `http.NewRequestWithContext` fails
(`buildErr`), or `client.Do` fails (`doErr`), or the request succeeds (`ok`).
`elapsed` / `doElapsed` is the value of `time.Since(reqStart)` at the point
the code evaluates it (line 80 resp. line 87, i.e. right after `client.Do`
returns); `bodyElapsed` is the additional wall-clock time `io.ReadAll` takes
to read the response body (line 98), and `bodyLen` the number of body bytes
read. -/
inductive ReqBehavior where
  | buildErr (msg : String) (elapsed : Nat)
  | doErr (msg : String) (elapsed : Nat)
  | ok (status : Int) (doElapsed : Nat) (bodyElapsed : Nat) (bodyLen : Nat)
deriving DecidableEq

/-- The `result` the worker sends on the `results` channel for one token
(lines 74-106).  On both error paths `StatusCode` is 0, `Bytes` keeps its
zero value and `Error` is set; on success the code records the status, the
duration snapshot taken at line 87 (before the body is read at line 98) and
the body byte count. -/
def performRequest : ReqBehavior → result
  | ReqBehavior.buildErr msg elapsed =>
      { StatusCode := 0, Duration := elapsed, Bytes := 0, Error := some msg }
  | ReqBehavior.doErr msg elapsed =>
      { StatusCode := 0, Duration := elapsed, Bytes := 0, Error := some msg }
  | ReqBehavior.ok status doElapsed _bodyElapsed bodyLen =>
      { StatusCode := status, Duration := doElapsed, Bytes := (bodyLen : Int),
        Error := none }

/-- The duration the spec's sentence describes: elapsed wall-clock time from
issuance to the FULL READ of the response body (or to the failure).  This is
a spec-side definition, written from the spec's words, to be compared with
what `performRequest` actually records. -/
def specFullReadDuration : ReqBehavior → Nat
  | ReqBehavior.buildErr _ elapsed => elapsed
  | ReqBehavior.doErr _ elapsed => elapsed
  | ReqBehavior.ok _ doElapsed bodyElapsed _ => doElapsed + bodyElapsed

/-- Observable events of one worker goroutine (lines 62-109):
`take` = a token was received from the `jobs` channel (the `for range jobs`
iteration started), `obs` = the `<-ctx.Done()` case of the `select` fired,
`emit o` = the worker sent `o` on the `results` channel. -/
inductive ChanEvent where
  | take
  | obs
  | emit (o : result)
deriving DecidableEq

/-- Event trace of one worker (lines 69-108).  `toks` is the sequence of
tokens this worker will receive from the `jobs` channel, with the behavior
each request would have; `cancel step` tells whether `ctx.Done()` is already
closed when the `select` of iteration `step` runs.  Each iteration first
takes a token; if cancellation is observed the worker returns at once
(`return`, line 72); otherwise it performs the request and emits one
outcome. -/
def workerTrace (cancel : Nat → Bool) : List ReqBehavior → Nat → List ChanEvent
  | [], _ => []
  | b :: rest, step =>
      if cancel step then [ChanEvent.take, ChanEvent.obs]
      else ChanEvent.take :: ChanEvent.emit (performRequest b)
             :: workerTrace cancel rest (step + 1)

/-- True when, once `obs` (cancellation observed) appears in a trace, nothing
at all follows it: no further token is taken and no further outcome emitted. -/
def noEventAfterObs : List ChanEvent → Bool
  | [] => true
  | ChanEvent.obs :: rest => rest.isEmpty
  | _ :: rest => noEventAfterObs rest

/-- The outcomes a trace sends on the `results` channel, in order. -/
def emittedOutcomes (tr : List ChanEvent) : List result :=
  tr.filterMap fun e =>
    match e with
    | ChanEvent.emit o => some o
    | _ => none

/-- The list of `result`s one worker contributes to the `results` channel. -/
def workerRun (cancel : Nat → Bool) (toks : List ReqBehavior) (step : Nat) :
    List result :=
  emittedOutcomes (workerTrace cancel toks step)

/-- The collector's mutable state (lines 117-126). -/
structure CollectorState where
  totalRequests : Nat
  successCount  : Nat
  failedCount   : Nat
  totalDuration : Nat
  minDuration   : Nat
  maxDuration   : Nat
  durations     : List Nat
  totalBytes    : Int
deriving DecidableEq

/-- Initial collector state (lines 117-126): zero values, except
`minDuration = time.Hour`. -/
def initCollector : CollectorState :=
  { totalRequests := 0, successCount := 0, failedCount := 0,
    totalDuration := 0, minDuration := hour, maxDuration := 0,
    durations := [], totalBytes := 0 }

/-- Failure classification (line 142): `res.Error != nil || res.StatusCode >= 400`. -/
def isFailed (res : result) : Bool :=
  res.Error.isSome || decide (400 ≤ res.StatusCode)

/-- One iteration of the collector loop (lines 128-147). -/
def collectOne (st : CollectorState) (res : result) : CollectorState :=
  { totalRequests := st.totalRequests + 1
    totalDuration := st.totalDuration + res.Duration
    totalBytes := st.totalBytes + res.Bytes
    minDuration := if res.Duration < st.minDuration then res.Duration
                   else st.minDuration
    maxDuration := if st.maxDuration < res.Duration then res.Duration
                   else st.maxDuration
    durations := st.durations ++ [res.Duration]
    failedCount := if isFailed res then st.failedCount + 1 else st.failedCount
    successCount := if isFailed res then st.successCount
                    else st.successCount + 1 }

/-- The full collector loop: fold over everything received on `results`. -/
def collect (results : List result) : CollectorState :=
  results.foldl collectOne initCollector

/-- Percentile index (lines 155-158): the code computes
`int(float64(len)*q)`.  For every length a Go slice can attain, the float64
product rounds to the same integer part as the exact product, so the index
is `floor(q * len)`, here with `q` as the exact fraction `qnum/100`. -/
def pIndex (qnum len : Nat) : Nat := qnum * len / 100

/-- `slices.Sort(durations)` (line 153): sort ascending.  Embedded as
insertion sort; any correct sort is determined by being a sorted permutation
of its input. -/
def sortDurations (l : List Nat) : List Nat := List.insertionSort (· ≤ ·) l

structure Percentiles where
  p50 : Nat
  p90 : Nat
  p95 : Nat
  p99 : Nat
deriving DecidableEq

/-- Lines 151-159: `p50`..`p99` keep their zero values unless at least one
duration was collected; otherwise the sorted list is indexed at the
truncating nearest-rank indices. -/
def percentiles (ds : List Nat) : Percentiles :=
  if 0 < ds.length then
    { p50 := (sortDurations ds).getD (pIndex 50 ds.length) 0
      p90 := (sortDurations ds).getD (pIndex 90 ds.length) 0
      p95 := (sortDurations ds).getD (pIndex 95 ds.length) 0
      p99 := (sortDurations ds).getD (pIndex 99 ds.length) 0 }
  else { p50 := 0, p90 := 0, p95 := 0, p99 := 0 }

/-- The latency/percentile/throughput block printed only when
`totalRequests > 0` (lines 169-186).  `throughputKBps` models the guarded
throughput print (lines 179-182) by its exact inputs `(totalBytes,
totalTestTime)`, present only when additionally `totalTestTime > 0`;
`successRate` likewise by `(successCount, totalRequests)`. -/
structure LatencySection where
  avgDuration : Nat
  minDuration : Nat
  maxDuration : Nat
  p50 : Nat
  p90 : Nat
  p95 : Nat
  p99 : Nat
  throughputKBps : Option (Int × Nat)
  successRate : Nat × Nat
deriving DecidableEq

/-- The report (lines 161-186).  `totalTestTime`, the request counts and the
requests-per-second line (which derives from `totalRequests` and
`totalTestTime` only) are always printed; the latency section is printed
only when `totalRequests > 0`. -/
structure Report where
  totalTestTime : Nat
  totalRequests : Nat
  successCount : Nat
  failedCount : Nat
  latency : Option LatencySection
deriving DecidableEq

/-- Reporting path (lines 117-186): collect every outcome received on the
`results` channel, compute the percentiles under the `len(durations) > 0`
guard, and build the printed report with the latency section under the
`totalRequests > 0` guard.  `avgDuration` is the integer division of
line 170. -/
def buildReport (results : List result) (totalTestTime : Nat) : Report :=
  let st := collect results
  let ps := percentiles st.durations
  { totalTestTime := totalTestTime
    totalRequests := st.totalRequests
    successCount := st.successCount
    failedCount := st.failedCount
    latency :=
      if 0 < st.totalRequests then
        some { avgDuration := st.totalDuration / st.totalRequests
               minDuration := st.minDuration
               maxDuration := st.maxDuration
               p50 := ps.p50, p90 := ps.p90, p95 := ps.p95, p99 := ps.p99
               throughputKBps :=
                 if 0 < totalTestTime then some (st.totalBytes, totalTestTime)
                 else none
               successRate := (st.successCount, st.totalRequests) }
      else none }

/-- The minimum of a duration list (spec-side helper for stating what the
reported minimum should be); 0 on the empty list. -/
def listMin : List Nat → Nat
  | [] => 0
  | d :: ds => ds.foldl min d

/-- The maximum of a duration list (spec-side helper); 0 on the empty list. -/
def listMax : List Nat → Nat
  | [] => 0
  | d :: ds => ds.foldl max d

/-- How far the entry of `Test` gets (lines 21-58): `usage` = the guard of
line 23 fired and the function returned after printing usage; `panicked` =
the guard passed but `make(chan result, count_r)` (line 49; likewise
`make(chan struct\x7b\x7d, count_r)` at line 54) panicked because the Go
runtime rejects a negative channel capacity; `proceeds` = the benchmark run
is reached. -/
inductive EntryOutcome where
  | usage
  | panicked
  | proceeds
deriving DecidableEq

/-- Entry control flow of `Test` (lines 21-58): the guard rejects exactly
`site == ""`, `count_p == 0`, `count_r == 0`; past it, a negative `count_r`
makes `make(chan result, count_r)` panic. -/
def testEntry (site : String) (count_p count_r : Int) : EntryOutcome :=
  if site = "" ∨ count_p = 0 ∨ count_r = 0 then EntryOutcome.usage
  else if count_r < 0 then EntryOutcome.panicked
  else EntryOutcome.proceeds

/-- True on the two worker error paths (request construction failure,
transport failure/timeout). -/
def isFailBehavior : ReqBehavior → Bool
  | ReqBehavior.buildErr _ _ => true
  | ReqBehavior.doErr _ _ => true
  | ReqBehavior.ok _ _ _ _ => false

/-! Shared lemmas about the collector fold and the helper min/max. -/

theorem foldl_collectOne_totalRequests (l : List result) (st : CollectorState) :
    (l.foldl collectOne st).totalRequests = st.totalRequests + l.length := by
  induction l generalizing st with
  | nil => simp
  | cons x xs ih => simp [ih, collectOne]; omega

theorem foldl_collectOne_counts (l : List result) (st : CollectorState) :
    (l.foldl collectOne st).successCount + (l.foldl collectOne st).failedCount
      = st.successCount + st.failedCount + l.length := by
  induction l generalizing st with
  | nil => simp
  | cons x xs ih =>
      simp only [List.foldl_cons, ih, List.length_cons, collectOne]
      by_cases h : isFailed x <;> simp [h] <;> omega

theorem foldl_collectOne_durations (l : List result) (st : CollectorState) :
    (l.foldl collectOne st).durations
      = st.durations ++ l.map fun r => r.Duration := by
  induction l generalizing st with
  | nil => simp
  | cons x xs ih => simp [ih, collectOne]

theorem foldl_collectOne_min (l : List result) (st : CollectorState) :
    (l.foldl collectOne st).minDuration
      = (l.map fun r => r.Duration).foldl min st.minDuration := by
  induction l generalizing st with
  | nil => simp
  | cons x xs ih =>
      simp only [List.foldl_cons, ih, List.map_cons]
      have hmin : (collectOne st x).minDuration = min st.minDuration x.Duration := by
        simp only [collectOne, Nat.min_def]
        split <;> split <;> omega
      rw [hmin]

theorem foldl_collectOne_max (l : List result) (st : CollectorState) :
    (l.foldl collectOne st).maxDuration
      = (l.map fun r => r.Duration).foldl max st.maxDuration := by
  induction l generalizing st with
  | nil => simp
  | cons x xs ih =>
      simp only [List.foldl_cons, ih, List.map_cons]
      have hmax : (collectOne st x).maxDuration = max st.maxDuration x.Duration := by
        simp only [collectOne, Nat.max_def]
        split <;> split <;> omega
      rw [hmax]

theorem foldl_min_min (l : List Nat) (a b : Nat) :
    l.foldl min (min a b) = min a (l.foldl min b) := by
  induction l generalizing b with
  | nil => rfl
  | cons c cs ih => simp only [List.foldl_cons, Nat.min_assoc, ih]

theorem foldl_max_max (l : List Nat) (a b : Nat) :
    l.foldl max (max a b) = max a (l.foldl max b) := by
  induction l generalizing b with
  | nil => rfl
  | cons c cs ih => simp only [List.foldl_cons, Nat.max_assoc, ih]

theorem foldl_min_eq_listMin (l : List Nat) (a : Nat) (h : l ≠ []) :
    l.foldl min a = min a (listMin l) := by
  match l with
  | [] => exact absurd rfl h
  | d :: ds => simp only [List.foldl_cons, listMin, foldl_min_min]

theorem foldl_max_eq_listMax (l : List Nat) (a : Nat) (h : l ≠ []) :
    l.foldl max a = max a (listMax l) := by
  match l with
  | [] => exact absurd rfl h
  | d :: ds => simp only [List.foldl_cons, listMax, foldl_max_max]

theorem foldl_min_le_mem (l : List Nat) (a : Nat) :
    (l.foldl min a ≤ a) ∧ ∀ d ∈ l, l.foldl min a ≤ d := by
  induction l generalizing a with
  | nil => simp
  | cons c cs ih =>
      simp only [List.foldl_cons]
      refine ⟨le_trans (ih (min a c)).1 (Nat.min_le_left a c), ?_⟩
      intro d hd
      rcases List.mem_cons.mp hd with h | h
      · subst h; exact le_trans (ih (min a d)).1 (Nat.min_le_right a d)
      · exact (ih (min a c)).2 d h

theorem le_foldl_max_mem (l : List Nat) (a : Nat) :
    (a ≤ l.foldl max a) ∧ ∀ d ∈ l, d ≤ l.foldl max a := by
  induction l generalizing a with
  | nil => simp
  | cons c cs ih =>
      simp only [List.foldl_cons]
      refine ⟨le_trans (Nat.le_max_left a c) (ih (max a c)).1, ?_⟩
      intro d hd
      rcases List.mem_cons.mp hd with h | h
      · subst h; exact le_trans (Nat.le_max_right a d) (ih (max a d)).1
      · exact (ih (max a c)).2 d h

theorem listMin_le_mem (l : List Nat) (d : Nat) (hd : d ∈ l) : listMin l ≤ d := by
  match l with
  | [] => cases hd
  | e :: es =>
      rcases List.mem_cons.mp hd with h | h
      · exact h ▸ (foldl_min_le_mem es e).1
      · exact (foldl_min_le_mem es e).2 d h

theorem le_listMax_mem (l : List Nat) (d : Nat) (hd : d ∈ l) : d ≤ listMax l := by
  match l with
  | [] => cases hd
  | e :: es =>
      rcases List.mem_cons.mp hd with h | h
      · exact h ▸ (le_foldl_max_mem es e).1
      · exact (le_foldl_max_mem es e).2 d h

theorem collect_totalRequests (results : List result) :
    (collect results).totalRequests = results.length := by
  simp [collect, foldl_collectOne_totalRequests, initCollector]

theorem collect_durations (results : List result) :
    (collect results).durations = results.map fun r => r.Duration := by
  simp [collect, foldl_collectOne_durations, initCollector]

theorem collect_minDuration (results : List result) (h : results ≠ []) :
    (collect results).minDuration
      = min hour (listMin (results.map fun r => r.Duration)) := by
  have hmap : (results.map fun r => r.Duration) ≠ [] := by
    simpa using List.ne_nil_of_length_pos
      (by simpa using List.length_pos.mpr h)
  rw [collect, foldl_collectOne_min,
    foldl_min_eq_listMin _ _ hmap]
  rfl

theorem collect_maxDuration (results : List result) (h : results ≠ []) :
    (collect results).maxDuration
      = listMax (results.map fun r => r.Duration) := by
  have hmap : (results.map fun r => r.Duration) ≠ [] := by
    simpa using List.ne_nil_of_length_pos
      (by simpa using List.length_pos.mpr h)
  rw [collect, foldl_collectOne_max, foldl_max_eq_listMax _ _ hmap]
  simp [initCollector]

theorem workerRun_noCancel_cons (b : ReqBehavior) (rest : List ReqBehavior)
    (step : Nat) :
    workerRun (fun _ => false) (b :: rest) step
      = performRequest b :: workerRun (fun _ => false) rest (step + 1) := by
  simp [workerRun, workerTrace, emittedOutcomes]

theorem workerRun_noCancel_length (toks : List ReqBehavior) (step : Nat) :
    (workerRun (fun _ => false) toks step).length = toks.length := by
  induction toks generalizing step with
  | nil => rfl
  | cons b rest ih => simp [workerRun_noCancel_cons, ih]

theorem buildReport_totalRequests (results : List result) (T : Nat) :
    (buildReport results T).totalRequests = (collect results).totalRequests := rfl

/-- Sample outcomes used as concrete witnesses: a successful request, a
transport failure, and an HTTP 404. -/
def sampleOk : result :=
  { StatusCode := 200, Duration := 10, Bytes := 100, Error := none }

def sampleErr : result :=
  { StatusCode := 0, Duration := 3, Bytes := 0, Error := some "connection refused" }

def sample404 : result :=
  { StatusCode := 404, Duration := 7, Bytes := 5, Error := none }

/-- An outcome lasting two hours (7200000000000 ns), above the one-hour
sentinel the collector initialises `minDuration` with. -/
def sampleTwoHours : result :=
  { StatusCode := 200, Duration := 7200000000000, Bytes := 0, Error := none }

/-- C3: after a worker observes the cancellation signal (the `<-ctx.Done()`
case of the select fires), it returns at once: in its event trace nothing
follows the observation, so no further token is taken from `jobs` and no
further outcome is emitted; the token consumed in the observing iteration
yields no request. -/
theorem claim_no_token_after_cancel (cancel : Nat → Bool)
    (toks : List ReqBehavior) (step : Nat) :
    noEventAfterObs (workerTrace cancel toks step) = true := by
  induction toks generalizing step with
  | nil => rfl
  | cons b rest ih =>
      by_cases h : cancel step
      · simp [workerTrace, h, noEventAfterObs]
      · simp [workerTrace, h, noEventAfterObs, ih]

theorem claim_no_token_after_cancel_witness :
    noEventAfterObs (workerTrace (fun step => decide (2 ≤ step))
      [ReqBehavior.ok 200 1 1 0, ReqBehavior.doErr "refused" 2,
       ReqBehavior.ok 200 1 1 0, ReqBehavior.ok 200 1 1 0] 0) = true :=
  claim_no_token_after_cancel (fun step => decide (2 ≤ step))
    [ReqBehavior.ok 200 1 1 0, ReqBehavior.doErr "refused" 2,
     ReqBehavior.ok 200 1 1 0, ReqBehavior.ok 200 1 1 0] 0

/-- C4: an outcome is classified failed exactly when its error is non-nil or
its status code is at least 400 (line 142), and the collector's success and
failure counts always add up to the total request count. -/
theorem claim_classification_and_count (res : result) (results : List result) :
    (isFailed res = true ↔ (res.Error ≠ none ∨ 400 ≤ res.StatusCode)) ∧
    (collect results).successCount + (collect results).failedCount
      = (collect results).totalRequests := by
  constructor
  · simp [isFailed, Option.isSome_iff_ne_none]
  · rw [collect_totalRequests]
    simpa [collect, initCollector] using
      foldl_collectOne_counts results initCollector

theorem claim_classification_and_count_witness :
    (isFailed sample404 = true ↔
      (sample404.Error ≠ none ∨ 400 ≤ sample404.StatusCode)) ∧
    (collect [sampleOk, sampleErr, sample404]).successCount
        + (collect [sampleOk, sampleErr, sample404]).failedCount
      = (collect [sampleOk, sampleErr, sample404]).totalRequests :=
  claim_classification_and_count sample404 [sampleOk, sampleErr, sample404]

/-- C5: a run that collects zero outcomes reports total = successful =
failed = 0 and the latency section (average/min/max, percentiles,
throughput, success rate) is absent: none of those fields is computed, so
no integer division by zero and no indexing into the empty sorted duration
list occurs; the percentile variables keep their zero values because the
`len(durations) > 0` guard is false. -/
theorem claim_zero_outcomes (T : Nat) :
    buildReport [] T = { totalTestTime := T, totalRequests := 0,
                         successCount := 0, failedCount := 0,
                         latency := none } ∧
    percentiles (collect []).durations
      = { p50 := 0, p90 := 0, p95 := 0, p99 := 0 } := by
  exact ⟨rfl, rfl⟩

theorem claim_zero_outcomes_witness :
    buildReport [] 5 = { totalTestTime := 5, totalRequests := 0,
                         successCount := 0, failedCount := 0,
                         latency := none } ∧
    percentiles (collect []).durations
      = { p50 := 0, p90 := 0, p95 := 0, p99 := 0 } :=
  claim_zero_outcomes 5

/-- C6 counterexample: with `client.Do` taking 5 time units and the body
read a further 7, the recorded Duration is 5 — the snapshot of line 87,
taken BEFORE `io.ReadAll` — not the 12 units from issuance to full body
read that the claim describes. -/
theorem claim_duration_counterexample :
    (performRequest (ReqBehavior.ok 200 5 7 10)).Duration = 5 ∧
    specFullReadDuration (ReqBehavior.ok 200 5 7 10) = 12 ∧
    (performRequest (ReqBehavior.ok 200 5 7 10)).Duration
      ≠ specFullReadDuration (ReqBehavior.ok 200 5 7 10) :=
  ⟨rfl, rfl, by decide⟩

/-- C6 amended: on success the outcome's Duration measures issuance to the
return of `client.Do` (the snapshot is taken before the body is read), so
it equals the round-trip elapsed time and is at most the issuance-to-full-
body-read time. -/
theorem claim_duration_before_body_read (status : Int)
    (doElapsed bodyElapsed bodyLen : Nat) :
    (performRequest (ReqBehavior.ok status doElapsed bodyElapsed bodyLen)).Duration
      = doElapsed ∧
    (performRequest (ReqBehavior.ok status doElapsed bodyElapsed bodyLen)).Duration
      ≤ specFullReadDuration (ReqBehavior.ok status doElapsed bodyElapsed bodyLen) :=
  ⟨rfl, Nat.le_add_right _ _⟩

theorem claim_duration_before_body_read_witness :
    (performRequest (ReqBehavior.ok 200 3 4 9)).Duration = 3 ∧
    (performRequest (ReqBehavior.ok 200 3 4 9)).Duration
      ≤ specFullReadDuration (ReqBehavior.ok 200 3 4 9) :=
  claim_duration_before_body_read 200 3 4 9

/-- C7: on a request-construction or transport failure the worker emits
exactly one outcome, with StatusCode 0, zero Bytes and the error set, and
then continues with the next token: the run on `b :: rest` is that one
outcome followed by the run on `rest` — no retry, no abort. -/
theorem claim_failure_outcome (b : ReqBehavior) (rest : List ReqBehavior)
    (step : Nat) (h : isFailBehavior b = true) :
    (performRequest b).StatusCode = 0 ∧ (performRequest b).Bytes = 0 ∧
    (performRequest b).Error.isSome = true ∧
    workerRun (fun _ => false) (b :: rest) step
      = performRequest b :: workerRun (fun _ => false) rest (step + 1) := by
  refine ⟨?_, ?_, ?_, workerRun_noCancel_cons b rest step⟩ <;>
    cases b <;> simp_all [performRequest, isFailBehavior]

theorem claim_failure_outcome_witness :
    (performRequest (ReqBehavior.doErr "timeout" 5)).StatusCode = 0 ∧
    (performRequest (ReqBehavior.doErr "timeout" 5)).Bytes = 0 ∧
    (performRequest (ReqBehavior.doErr "timeout" 5)).Error.isSome = true ∧
    workerRun (fun _ => false) [ReqBehavior.doErr "timeout" 5,
        ReqBehavior.ok 200 1 1 0] 0
      = performRequest (ReqBehavior.doErr "timeout" 5)
          :: workerRun (fun _ => false) [ReqBehavior.ok 200 1 1 0] 1 :=
  claim_failure_outcome (ReqBehavior.doErr "timeout" 5)
    [ReqBehavior.ok 200 1 1 0] 0 rfl

/-- C10: the entry guard of line 23 rejects only the exact values
`site == ""`, `count_p == 0`, `count_r == 0`; every negative `count_r`
passes it, and the run then panics at `make(chan result, count_r)` (the Go
runtime rejects negative channel capacities) instead of returning with the
usage message. -/
theorem claim_negative_count_panics (site : String) (count_p count_r : Int)
    (hs : site ≠ "") (hp : count_p ≠ 0) (hr : count_r < 0) :
    ¬(site = "" ∨ count_p = 0 ∨ count_r = 0) ∧
    testEntry site count_p count_r = EntryOutcome.panicked ∧
    testEntry site count_p count_r ≠ EntryOutcome.usage := by
  have hr0 : count_r ≠ 0 := by omega
  refine ⟨?_, ?_, ?_⟩
  · rintro (hbad | hbad | hbad)
    · exact hs hbad
    · exact hp hbad
    · exact hr0 hbad
  · simp [testEntry, hs, hp, hr0, hr]
  · simp [testEntry, hs, hp, hr0, hr]

theorem claim_negative_count_panics_witness :
    ¬(("example.com" : String) = "" ∨ (1 : Int) = 0 ∨ (-1 : Int) = 0) ∧
    testEntry "example.com" 1 (-1) = EntryOutcome.panicked ∧
    testEntry "example.com" 1 (-1) ≠ EntryOutcome.usage :=
  claim_negative_count_panics "example.com" 1 (-1) (by decide) (by decide)
    (by decide)

/-- C1: without cancellation every worker emits one outcome per token it
receives, so however the `jobs` channel partitions the N tokens over the P
workers and however the `results` channel interleaves the emitted outcomes,
the collector receives exactly N outcomes and the report shows
`totalRequests = N`. -/
theorem claim_conservation_of_work (N P : Nat) (hN : 1 ≤ N) (hP : 1 ≤ P)
    (parts : List (List ReqBehavior)) (hparts : parts.length = P)
    (htok : parts.flatten.length = N) (delivered : List result)
    (hdel : delivered.Perm
      (parts.map fun toks => workerRun (fun _ => false) toks 0).flatten)
    (T : Nat) :
    (buildReport delivered T).totalRequests = N := by
  rw [buildReport_totalRequests, collect_totalRequests, hdel.length_eq,
    List.length_flatten, List.map_map]
  have hlen : parts.map (List.length ∘ fun toks => workerRun (fun _ => false) toks 0)
      = parts.map List.length := by
    apply List.map_congr_left
    intro toks _
    exact workerRun_noCancel_length toks 0
  rw [hlen, ← List.length_flatten, htok]

theorem claim_conservation_of_work_witness :
    (buildReport (workerRun (fun _ => false)
        [ReqBehavior.ok 200 1 1 0, ReqBehavior.doErr "refused" 2] 0) 5).totalRequests
      = 2 :=
  claim_conservation_of_work 2 1 (by decide) (by decide)
    [[ReqBehavior.ok 200 1 1 0, ReqBehavior.doErr "refused" 2]] rfl rfl
    (workerRun (fun _ => false)
      [ReqBehavior.ok 200 1 1 0, ReqBehavior.doErr "refused" 2] 0)
    (by decide) 5

/-- C2: for a non-empty duration list, `slices.Sort` produces an ascending
permutation of it, the four truncating nearest-rank indices
`floor(q * len)` are all strictly below the length (so indexing is in
bounds), and the reported percentiles are exactly the sorted list's
elements at those indices — no interpolation. -/
theorem claim_nearest_rank_percentiles (l : List Nat) (h : l ≠ []) :
    (sortDurations l).length = l.length ∧
    List.Sorted (· ≤ ·) (sortDurations l) ∧
    (sortDurations l).Perm l ∧
    50 * l.length / 100 < l.length ∧
    90 * l.length / 100 < l.length ∧
    95 * l.length / 100 < l.length ∧
    99 * l.length / 100 < l.length ∧
    percentiles l
      = { p50 := (sortDurations l).getD (50 * l.length / 100) 0,
          p90 := (sortDurations l).getD (90 * l.length / 100) 0,
          p95 := (sortDurations l).getD (95 * l.length / 100) 0,
          p99 := (sortDurations l).getD (99 * l.length / 100) 0 } := by
  have hn : 0 < l.length := List.length_pos.mpr h
  refine ⟨(List.perm_insertionSort (· ≤ ·) l).length_eq,
    List.sorted_insertionSort (· ≤ ·) l, List.perm_insertionSort (· ≤ ·) l,
    by omega, by omega, by omega, by omega, ?_⟩
  simp [percentiles, hn, pIndex]

theorem claim_nearest_rank_percentiles_witness :
    (sortDurations [5, 3, 4]).length = [5, 3, 4].length ∧
    List.Sorted (· ≤ ·) (sortDurations [5, 3, 4]) ∧
    (sortDurations [5, 3, 4]).Perm [5, 3, 4] ∧
    50 * [5, 3, 4].length / 100 < [5, 3, 4].length ∧
    90 * [5, 3, 4].length / 100 < [5, 3, 4].length ∧
    95 * [5, 3, 4].length / 100 < [5, 3, 4].length ∧
    99 * [5, 3, 4].length / 100 < [5, 3, 4].length ∧
    percentiles [5, 3, 4]
      = { p50 := (sortDurations [5, 3, 4]).getD (50 * [5, 3, 4].length / 100) 0,
          p90 := (sortDurations [5, 3, 4]).getD (90 * [5, 3, 4].length / 100) 0,
          p95 := (sortDurations [5, 3, 4]).getD (95 * [5, 3, 4].length / 100) 0,
          p99 := (sortDurations [5, 3, 4]).getD (99 * [5, 3, 4].length / 100) 0 } :=
  claim_nearest_rank_percentiles [5, 3, 4] (by decide)

/-- C8 counterexample: `minDuration` is initialised to `time.Hour`
(line 122), so for a single collected outcome lasting two hours the
reported minimum is one hour, not the actual minimum of the collected
durations.  (Unreachable in a real run, where the 10-second client timeout
keeps every duration far below one hour.) -/
theorem claim_min_duration_counterexample :
    (collect [sampleTwoHours]).minDuration = 3600000000000 ∧
    listMin ((collect [sampleTwoHours]).durations) = 7200000000000 ∧
    (collect [sampleTwoHours]).minDuration
      ≠ listMin ((collect [sampleTwoHours]).durations) :=
  ⟨rfl, rfl, by decide⟩

/-- C8 amended: for every run with at least one outcome the reported
maximum equals the maximum of the collected durations, and the reported
minimum equals `min(time.Hour, minimum of the collected durations)` — the
true minimum exactly when some duration is below one hour (always the case
in practice, given the 10-second per-request timeout). -/
theorem claim_min_max_duration (results : List result) (h : results ≠ []) :
    (collect results).maxDuration
      = listMax (results.map fun r => r.Duration) ∧
    (collect results).minDuration
      = min hour (listMin (results.map fun r => r.Duration)) :=
  ⟨collect_maxDuration results h, collect_minDuration results h⟩

theorem claim_min_max_duration_witness :
    (collect [sampleOk, sampleErr]).maxDuration
      = listMax ([sampleOk, sampleErr].map fun r => r.Duration) ∧
    (collect [sampleOk, sampleErr]).minDuration
      = min hour (listMin ([sampleOk, sampleErr].map fun r => r.Duration)) :=
  claim_min_max_duration [sampleOk, sampleErr] (by decide)

theorem percentiles_chain (ds : List Nat) (h : ds ≠ []) :
    listMin ds ≤ (percentiles ds).p50 ∧
    (percentiles ds).p50 ≤ (percentiles ds).p90 ∧
    (percentiles ds).p90 ≤ (percentiles ds).p95 ∧
    (percentiles ds).p95 ≤ (percentiles ds).p99 ∧
    (percentiles ds).p99 ≤ listMax ds := by
  have hn : 0 < ds.length := List.length_pos.mpr h
  have hperm := List.perm_insertionSort (· ≤ ·) ds
  have hsorted := List.sorted_insertionSort (· ≤ ·) ds
  have hslen : (sortDurations ds).length = ds.length := hperm.length_eq
  have hi50 : 50 * ds.length / 100 < (sortDurations ds).length := by
    rw [hslen]; omega
  have hi90 : 90 * ds.length / 100 < (sortDurations ds).length := by
    rw [hslen]; omega
  have hi95 : 95 * ds.length / 100 < (sortDurations ds).length := by
    rw [hslen]; omega
  have hi99 : 99 * ds.length / 100 < (sortDurations ds).length := by
    rw [hslen]; omega
  have hmono : ∀ i j, i ≤ j → ∀ hj : j < (sortDurations ds).length,
      (sortDurations ds).getD i 0 ≤ (sortDurations ds).getD j 0 := by
    intro i j hij hj
    have hi : i < (sortDurations ds).length := lt_of_le_of_lt hij hj
    rw [List.getD_eq_get _ _ hi, List.getD_eq_get _ _ hj]
    exact hsorted.rel_get_of_le (Fin.mk_le_mk.mpr hij)
  have hmem : ∀ i, ∀ hi : i < (sortDurations ds).length,
      (sortDurations ds).getD i 0 ∈ ds := by
    intro i hi
    rw [List.getD_eq_get _ _ hi]
    exact hperm.mem_iff.mp (List.get_mem _ i hi)
  simp only [percentiles, if_pos hn, pIndex]
  refine ⟨listMin_le_mem ds _ (hmem _ hi50),
    hmono _ _ (Nat.div_le_div_right (by omega)) hi90,
    hmono _ _ (Nat.div_le_div_right (by omega)) hi95,
    hmono _ _ (Nat.div_le_div_right (by omega)) hi99,
    le_listMax_mem ds _ (hmem _ hi99)⟩

/-- C9: for every run with at least one outcome the reported statistics
satisfy `min ≤ p50 ≤ p90 ≤ p95 ≤ p99 ≤ max`: the percentile indices are
monotone, the list they index is sorted ascending, every percentile is one
of the collected durations, and the reported min (never above the true
minimum, being `min(hour, minimum)`) and max bound them. -/
theorem claim_percentile_monotonic (results : List result) (h : results ≠ []) :
    (collect results).minDuration
      ≤ (percentiles (collect results).durations).p50 ∧
    (percentiles (collect results).durations).p50
      ≤ (percentiles (collect results).durations).p90 ∧
    (percentiles (collect results).durations).p90
      ≤ (percentiles (collect results).durations).p95 ∧
    (percentiles (collect results).durations).p95
      ≤ (percentiles (collect results).durations).p99 ∧
    (percentiles (collect results).durations).p99
      ≤ (collect results).maxDuration := by
  have hds := collect_durations results
  have hne : (collect results).durations ≠ [] := by
    rw [hds]
    intro hc
    exact h (List.map_eq_nil.mp hc)
  obtain ⟨h1, h2, h3, h4, h5⟩ := percentiles_chain _ hne
  refine ⟨le_trans ?_ h1, h2, h3, h4, le_trans h5 ?_⟩
  · rw [collect_minDuration results h, hds]
    exact Nat.min_le_right _ _
  · rw [collect_maxDuration results h, hds]

theorem claim_percentile_monotonic_witness :
    (collect [sampleOk, sampleErr]).minDuration
      ≤ (percentiles (collect [sampleOk, sampleErr]).durations).p50 ∧
    (percentiles (collect [sampleOk, sampleErr]).durations).p50
      ≤ (percentiles (collect [sampleOk, sampleErr]).durations).p90 ∧
    (percentiles (collect [sampleOk, sampleErr]).durations).p90
      ≤ (percentiles (collect [sampleOk, sampleErr]).durations).p95 ∧
    (percentiles (collect [sampleOk, sampleErr]).durations).p95
      ≤ (percentiles (collect [sampleOk, sampleErr]).durations).p99 ∧
    (percentiles (collect [sampleOk, sampleErr]).durations).p99
      ≤ (collect [sampleOk, sampleErr]).maxDuration :=
  claim_percentile_monotonic [sampleOk, sampleErr] (by decide)

end GoHttpTest
